import Mathlib

/-!
Verification of the benchmark execution and measurement engine of
`pybrasil-rs` (files `src/pybrasil_rs/benchmarks.py` and
`src/pybrasil_rs/utils.py`), via a shallow embedding in Lean 4.

Modelling conventions:
* Python floats are modelled as rationals (`ℚ`); `round(x, n)` is modelled
  by `roundTo n x`.
* The external world (filesystem, `psutil`/`platform` system probes, and the
  measured executions of the pandas/polars query pipelines) is an explicit
  environment `Env`; each externally determined quantity is an oracle field.
* The per-engine CSV files under `results/` are modelled as a `Store`
  mapping an engine name to `none` (file absent) or `some file`, a `CsvFile`
  that is either a readable `table` of serialized rows (header-bearing CSV,
  row-level `read_csv`/`to_csv` round-trip) or `blank` — the zero-column
  file `DataFrame.to_csv` writes for `pd.DataFrame([])`, on which
  `pd.read_csv` raises `pandas.errors.EmptyDataError`.
* Python exceptions are modelled with `Except`; the observable actions of a
  run (snapshot capture, adapter executions, store writes, hand-offs to the
  store and to the display sink) are recorded in an event trace.
-/

namespace PyBrasil

/-- `round(x, n)` from Python, modelled on rationals: scale by `10 ^ n`,
round to the nearest integer, and scale back. -/
def roundTo (n : ℕ) (x : ℚ) : ℚ :=
  (round (x * 10 ^ n) : ℤ) / 10 ^ n

/-- The dictionary produced by `utils.get_system_info`: timestamp,
physical/logical core counts, processor name, clock frequency (possibly
`None`), and total/available memory in gigabytes. -/
structure SystemInfo where
  timestamp : String
  cpu_count : ℤ
  cpu_count_logical : ℤ
  cpu_name : String
  cpu_freq_mhz : Option ℤ
  memory_total_gb : ℚ
  memory_available_gb : ℚ
deriving DecidableEq, Repr

/-- A scalar value appearing in a serialized result row. -/
inductive Value where
  | str (s : String)
  | rat (q : ℚ)
  | int (n : ℤ)
  | optInt (n : Option ℤ)
deriving DecidableEq, Repr

/-- A serialized row: ordered field-name/value pairs (`to_dict` output). -/
abbrev Row := List (String × Value)

/-- The `BenchmarkResult` record from `benchmarks.py`. -/
structure BenchmarkResult where
  engine : String
  scenario : String
  time_seconds : ℚ
  memory_mb : ℚ
  system_info : SystemInfo
  run_label : String
deriving DecidableEq, Repr

/-- `BenchmarkResult.__init__`: stores the engine, scenario and label as
given, rounds `time_seconds` to 4 decimal places and `memory_mb` to 2. -/
def BenchmarkResult.make (engine scenario : String) (time_seconds memory_mb : ℚ)
    (system_info : SystemInfo) (run_label : String) : BenchmarkResult :=
  { engine := engine
    scenario := scenario
    time_seconds := roundTo 4 time_seconds
    memory_mb := roundTo 2 memory_mb
    system_info := system_info
    run_label := run_label }

/-- `BenchmarkResult.to_dict`: the serialized row, fields in source order. -/
def BenchmarkResult.to_dict (r : BenchmarkResult) : Row :=
  [ ("timestamp", .str r.system_info.timestamp)
  , ("run_label", .str r.run_label)
  , ("engine", .str r.engine)
  , ("scenario", .str r.scenario)
  , ("time_seconds", .rat r.time_seconds)
  , ("memory_mb", .rat r.memory_mb)
  , ("cpu_count", .int r.system_info.cpu_count)
  , ("cpu_count_logical", .int r.system_info.cpu_count_logical)
  , ("cpu_name", .str r.system_info.cpu_name)
  , ("cpu_freq_mhz", .optInt r.system_info.cpu_freq_mhz)
  , ("memory_total_gb", .rat r.system_info.memory_total_gb)
  , ("memory_available_gb", .rat r.system_info.memory_available_gb) ]

/-! ### Measurement Wrapper (`_measure_execution`)

The measured operation is a state transformer over `TraceState`, which
carries the monotonic clock (`time.perf_counter`) and the `tracemalloc`
allocation tracker. Reading the clock does not change the state; the
operation itself may advance the clock and the traced allocation counters. -/

/-- The runtime state visible to `_measure_execution`: the monotonic clock
and the `tracemalloc` tracker (current and peak traced bytes, and whether
tracing is active). -/
structure TraceState where
  clock : ℚ
  traceCurrent : ℚ
  tracePeak : ℚ
  tracing : Bool
deriving DecidableEq, Repr

/-- `tracemalloc.start()`: begins tracing with zeroed counters. -/
def tracemallocStart (s : TraceState) : TraceState :=
  { s with tracing := true, traceCurrent := 0, tracePeak := 0 }

/-- `tracemalloc.stop()`: stops tracing. -/
def tracemallocStop (s : TraceState) : TraceState :=
  { s with tracing := false }

/-- `time.perf_counter()`: reads the monotonic clock. -/
def perfCounter (s : TraceState) : ℚ := s.clock

/-- `tracemalloc.get_traced_memory()`: the `(current, peak)` traced bytes. -/
def getTracedMemory (s : TraceState) : ℚ × ℚ := (s.traceCurrent, s.tracePeak)

/-- `_measure_execution(func)`: start tracing, read the clock, run `func`
once discarding its return value, read the clock again, read the traced
peak, stop tracing, and return `(elapsed_seconds, peak_bytes / (1024*1024))`. -/
def measure_execution {α : Type} (func : TraceState → TraceState × α)
    (s0 : TraceState) : TraceState × (ℚ × ℚ) :=
  let s1 := tracemallocStart s0
  let start_time := perfCounter s1
  let s2 := (func s1).1
  let end_time := perfCounter s2
  let currentPeak := getTracedMemory s2
  let s3 := tracemallocStop s2
  (s3, (end_time - start_time, currentPeak.2 / (1024 * 1024)))

/-! ### Result Store (`_save_results`) and the Runner's external world -/

/-- The contents of one persisted CSV file. `DataFrame.to_csv` of a frame
built from a nonempty list of row dictionaries writes a header line and the
rows; `pd.DataFrame([])` has no columns, so writing it produces a blank
(zero-column) file. `pd.read_csv` parses a header-bearing file back into its
rows, but raises `pandas.errors.EmptyDataError` on a blank file. -/
inductive CsvFile where
  | blank
  | table (rows : List Row)
deriving DecidableEq, Repr

/-- The `results/` directory: each engine name maps to `none` (no CSV file)
or `some file` (the file's contents). A `table` round-trips through
`read_csv` at the row level; a `blank` file cannot be read back. -/
abbrev Store := String → Option CsvFile

/-- The per-iteration working sets: `results_by_engine`, an
insertion-ordered dictionary from engine name to accumulated results. -/
abbrev RBE := List (String × List BenchmarkResult)

/-- Observable actions of a run, in program order. -/
inductive Event where
  | snapshot (info : SystemInfo)
  | ran (engine scenario : String)
  | saved (ws : RBE)
  | wrote (engine : String)
  | displayed (ws : RBE)
deriving DecidableEq, Repr

/-- Exceptions that escape `run_benchmarks`. `emptyDataError` is
`pandas.errors.EmptyDataError`, raised by `pd.read_csv` in `_save_results`
when an engine's existing CSV is a blank (zero-column) file; nothing in
`run_benchmarks` catches it. -/
inductive RunError where
  | adapterError (msg : String)
  | unknownEngine (engine : String)
  | nameError (name : String)
  | emptyDataError
deriving DecidableEq, Repr

/-- Exceptions raised by `_run_single_benchmark`. -/
inductive PairError where
  | fileNotFound
  | unknownEngine (engine : String)
  | adapter (msg : String)
deriving DecidableEq, Repr

/-- The external world: which files exist, what `get_system_info` returns at
each iteration, and the outcome of the measured query execution of each
(engine, scenario) pair at each iteration — either `(elapsed_seconds,
peak_bytes_in_mb)` or an exception message from the engine library. -/
structure Env where
  fs : String → Bool
  sysInfoAt : ℤ → SystemInfo
  measure : String → String → ℤ → Except String (ℚ × ℚ)

/-- `DATA_DIR / f"fact_content_performance_{scenario}.parquet"`. -/
def factFile (scenario : String) : String :=
  "data/fact_content_performance_" ++ scenario ++ ".parquet"

/-- `DATA_DIR / f"dim_content_metadata_{scenario}.parquet"`. -/
def dimFile (scenario : String) : String :=
  "data/dim_content_metadata_" ++ scenario ++ ".parquet"

/-- Both input files of a scenario exist. -/
def filesExist (env : Env) (scenario : String) : Bool :=
  env.fs (factFile scenario) && env.fs (dimFile scenario)

/-- `_benchmark_pandas`: measures the eager pandas pipeline (fastparquet or
pyarrow decoding according to `use_pyarrow`) and wraps the outcome in a
`BenchmarkResult` named `"pandas"` or `"pandas-pyarrow"`. -/
def benchmark_pandas (env : Env) (i : ℤ) (scenario : String)
    (system_info : SystemInfo) (run_label : String) (use_pyarrow : Bool) :
    Except PairError BenchmarkResult :=
  let name := if use_pyarrow then "pandas-pyarrow" else "pandas"
  match env.measure name scenario i with
  | .ok (elapsed, peak) =>
      .ok (BenchmarkResult.make name scenario elapsed peak system_info run_label)
  | .error msg => .error (.adapter msg)

/-- `_benchmark_polars`: measures the lazy polars pipeline and wraps the
outcome in a `BenchmarkResult` named `"polars"`. -/
def benchmark_polars (env : Env) (i : ℤ) (scenario : String)
    (system_info : SystemInfo) (run_label : String) :
    Except PairError BenchmarkResult :=
  match env.measure "polars" scenario i with
  | .ok (elapsed, peak) =>
      .ok (BenchmarkResult.make "polars" scenario elapsed peak system_info run_label)
  | .error msg => .error (.adapter msg)

/-- `_run_single_benchmark`: raise `FileNotFoundError` if either input file
is missing, otherwise dispatch on the engine name, raising `ValueError` for
an unknown engine. -/
def run_single_benchmark (env : Env) (i : ℤ) (engine scenario : String)
    (system_info : SystemInfo) (run_label : String) :
    Except PairError BenchmarkResult :=
  if ¬ (env.fs (factFile scenario)) ∨ ¬ (env.fs (dimFile scenario)) then
    .error .fileNotFound
  else if engine = "pandas" then
    benchmark_pandas env i scenario system_info run_label false
  else if engine = "pandas-pyarrow" then
    benchmark_pandas env i scenario system_info run_label true
  else if engine = "polars" then
    benchmark_polars env i scenario system_info run_label
  else
    .error (.unknownEngine engine)

/-- `results_by_engine[eng].append(result)` (every key is unique, so only
the matching entry changes). -/
def appendResult (rbe : RBE) (eng : String) (r : BenchmarkResult) : RBE :=
  rbe.map (fun p => if p.1 = eng then (p.1, p.2 ++ [r]) else p)

/-- The file contents written for one engine when its read (if any)
succeeded: a readable `table old` gets the new rows concatenated after its
rows (`pd.concat` + full rewrite); an absent file is created from the new
rows alone — a blank file when there are none (`pd.DataFrame([])` has no
columns), a header-bearing table otherwise. The `blank` input case is
unreachable on the success path (`read_csv` raises first); it is mapped to
itself. -/
def appendCsv (entry : Option CsvFile) (rows : List Row) : Option CsvFile :=
  match entry with
  | some .blank => some .blank
  | some (.table old) => some (.table (old ++ rows))
  | none => if rows = [] then some .blank else some (.table rows)

/-- The store after one engine's successful write. -/
def saveEngineOk (store : Store) (engine : String)
    (results : List BenchmarkResult) : Store :=
  fun e =>
    if e = engine then appendCsv (store engine) (results.map BenchmarkResult.to_dict)
    else store e

/-- Serialize one engine's results and write them to that engine's CSV. When
the file exists, `_save_results` first calls `pd.read_csv` on it: on a blank
(zero-column) file this raises `EmptyDataError`; on a readable file the new
rows are concatenated after the existing ones and the file rewritten. When
no file exists it is created from the new rows alone. -/
def saveEngine (store : Store) (engine : String)
    (results : List BenchmarkResult) : Except RunError Store :=
  if store engine = some CsvFile.blank then .error .emptyDataError
  else .ok (saveEngineOk store engine results)

/-- `_save_results(results_by_engine)`: iterate the dictionary in insertion
order, writing each engine's file and emitting its write event; an
`EmptyDataError` from a read propagates immediately. -/
def save_results (store : Store) : RBE → Except RunError (Store × List Event)
  | [] => .ok (store, [])
  | (engine, results) :: rest =>
    match saveEngine store engine results with
    | .error err => .error err
    | .ok store' =>
      match save_results store' rest with
      | .error err => .error err
      | .ok (store'', evs) => .ok (store'', .wrote engine :: evs)

/-- The inner `for scn in scenarios: for eng in engines:` pair order
(scenario-major). -/
def pairsOf (scenarios engines : List String) : List (String × String) :=
  scenarios.flatMap (fun scn => engines.map (fun eng => (scn, eng)))

/-- The body of the nested pair loop: try `_run_single_benchmark` and append
the result, catching (only) `FileNotFoundError` with `pass`; any other
exception propagates and aborts the run. -/
def pairsLoop (env : Env) (i : ℤ) (run_label : String) :
    List (String × String) → RBE × List Event →
    Except RunError (RBE × List Event)
  | [], st => .ok st
  | (scn, eng) :: rest, (rbe, evs) =>
    match run_single_benchmark env i eng scn (env.sysInfoAt i) run_label with
    | .ok r => pairsLoop env i run_label rest
        (appendResult rbe eng r, evs ++ [.ran eng scn])
    | .error .fileNotFound => pairsLoop env i run_label rest (rbe, evs)
    | .error (.unknownEngine e) => .error (.unknownEngine e)
    | .error (.adapter msg) => .error (.adapterError msg)

/-- One repeat-iteration `run_num = i`: fresh empty working sets, one
`get_system_info()` call, the nested pair loop, then `_save_results`.
Returns the updated store, the extended trace, and the iteration's
working sets. -/
def runIteration (env : Env) (run_label : String)
    (scenarios engines : List String) (i : ℤ) (store : Store)
    (evs : List Event) : Except RunError (Store × List Event × RBE) :=
  let rbe0 : RBE := engines.map (fun e => (e, []))
  let evs1 := evs ++ [.snapshot (env.sysInfoAt i)]
  match pairsLoop env i run_label (pairsOf scenarios engines) (rbe0, evs1) with
  | .error e => .error e
  | .ok (rbe, evs2) =>
      match save_results store rbe with
      | .error err => .error err
      | .ok (store', wrotes) => .ok (store', evs2 ++ (.saved rbe :: wrotes), rbe)

/-- The values taken by `run_num` in `range(1, runs + 1)`. -/
def runNums (runs : ℤ) : List ℤ :=
  (List.range runs.toNat).map (fun k => Int.ofNat k + 1)

/-- The `for run_num in range(1, runs + 1):` loop; carries the store, the
trace, and the binding of `results_by_engine` (`none` while unbound). -/
def runsLoop (env : Env) (run_label : String) (scenarios engines : List String) :
    List ℤ → Store → List Event → Option RBE →
    Except RunError (Store × List Event × Option RBE)
  | [], store, evs, lastRBE => .ok (store, evs, lastRBE)
  | i :: rest, store, evs, _ =>
    match runIteration env run_label scenarios engines i store evs with
    | .error e => .error e
    | .ok (store', evs', rbe) =>
        runsLoop env run_label scenarios engines rest store' evs' (some rbe)

/-- `scenarios = ["small","medium","large","xlarge"]`, replaced by
`[scenario]` when a single scenario is selected. -/
def selScenarios (scenario : String) : List String :=
  if scenario ≠ "all" then [scenario]
  else ["small", "medium", "large", "xlarge"]

/-- `engines = ["pandas","pandas-pyarrow","polars"]`, replaced by `[engine]`
when a single engine is selected. -/
def selEngines (engine : String) : List String :=
  if engine ≠ "all" then [engine]
  else ["pandas", "pandas-pyarrow", "polars"]

/-- `run_benchmarks(scenario, engine, run_label, runs)` over the external
world `env`, starting from the `results/` state `store0`. After the repeat
loop, `_display_results(results_by_engine)` reads the loop variable: when no
iteration ran it is unbound and a `NameError` is raised. -/
def run_benchmarks (env : Env) (scenario engine run_label : String)
    (runs : ℤ) (store0 : Store) : Except RunError (Store × List Event) :=
  let scenarios := selScenarios scenario
  let engines := selEngines engine
  match runsLoop env run_label scenarios engines (runNums runs) store0 [] none with
  | .error e => .error e
  | .ok (store, evs, some rbe) => .ok (store, evs ++ [.displayed rbe])
  | .ok (_, _, none) => .error (.nameError "results_by_engine")

/-! ### Closed forms for a run in a well-behaved environment -/

/-- The engine names the per-pair dispatch recognizes. -/
def engineKnown (e : String) : Bool :=
  e == "pandas" || e == "pandas-pyarrow" || e == "polars"

/-- The `(elapsed, peak)` pair the measurement oracle reports for a pair
that executes successfully (junk value on the error branch). -/
def measuredPair (env : Env) (i : ℤ) (e s : String) : ℚ × ℚ :=
  match env.measure e s i with
  | .ok p => p
  | .error _ => (0, 0)

/-- The `BenchmarkResult` a successful (engine, scenario) execution yields
at iteration `i`. -/
def expectedResult (env : Env) (run_label : String) (i : ℤ) (e s : String) :
    BenchmarkResult :=
  BenchmarkResult.make e s (measuredPair env i e s).1 (measuredPair env i e s).2
    (env.sysInfoAt i) run_label

/-- An environment in which no fatal error can occur for the requested
matrix: every requested engine is a known one, and every measured execution
whose input files exist returns normally. -/
def goodEnv (env : Env) (scenarios engines : List String) : Prop :=
  (∀ e ∈ engines, engineKnown e = true) ∧
  (∀ e ∈ engines, ∀ s ∈ scenarios, ∀ i : ℤ, filesExist env s = true →
    env.measure e s i = .ok (measuredPair env i e s))

/-- The effect of one (scenario, engine) pair on the working sets: append
the pair's result when both files exist, else leave them unchanged. -/
def pairStep (env : Env) (run_label : String) (i : ℤ) (rbe : RBE)
    (p : String × String) : RBE :=
  if filesExist env p.1 then
    appendResult rbe p.2 (expectedResult env run_label i p.2 p.1)
  else rbe

/-- The results engine `e` accumulates from a pair list. -/
def pairResults (env : Env) (run_label : String) (i : ℤ)
    (ps : List (String × String)) (e : String) : List BenchmarkResult :=
  (ps.filter (fun p => p.2 == e && filesExist env p.1)).map
    (fun p => expectedResult env run_label i e p.1)

/-- Engine `e`'s working set after one iteration: one result per requested
scenario whose two input files exist, in scenario order. -/
def expectedList (env : Env) (run_label : String) (scenarios : List String)
    (i : ℤ) (e : String) : List BenchmarkResult :=
  (scenarios.filter (fun s => filesExist env s)).map
    (fun s => expectedResult env run_label i e s)

/-- The full working sets of iteration `i`: one entry per requested engine,
in request order. -/
def iterWS (env : Env) (run_label : String) (scenarios engines : List String)
    (i : ℤ) : RBE :=
  engines.map (fun e => (e, expectedList env run_label scenarios i e))

/-- The adapter-execution events of one iteration: one per pair whose two
input files exist, in loop order. -/
def ranEvents (env : Env) (scenarios engines : List String) :
    List Event :=
  ((pairsOf scenarios engines).filter (fun p => filesExist env p.1)).map
    (fun p => Event.ran p.2 p.1)

/-- The store effect of a successful `_save_results` call (without its
events). -/
def saveStore (store : Store) (rbe : RBE) : Store :=
  rbe.foldl (fun st p => saveEngineOk st p.1 p.2) store

/-- The event trace of one iteration: one snapshot first, then the adapter
executions, then the hand-off to the Result Store and one write per
requested engine. -/
def iterTrace (env : Env) (run_label : String) (scenarios engines : List String)
    (i : ℤ) : List Event :=
  Event.snapshot (env.sysInfoAt i) ::
    (ranEvents env scenarios engines ++
      (Event.saved (iterWS env run_label scenarios engines i) ::
        engines.map Event.wrote))

/-- The store after the iterations in `js` have each appended their rows. -/
def storeAfter (env : Env) (run_label : String)
    (scenarios engines : List String) (js : List ℤ) (store : Store) : Store :=
  js.foldl (fun st i => saveStore st (iterWS env run_label scenarios engines i))
    store

/-- The binding of `results_by_engine` after the iterations in `js`. -/
def lastWS (env : Env) (run_label : String) (scenarios engines : List String)
    (js : List ℤ) (acc : Option RBE) : Option RBE :=
  js.foldl (fun _ i => some (iterWS env run_label scenarios engines i)) acc

/-- No save of the run can hit a blank CSV: no requested engine's table is
currently the blank file, and when an engine has no file yet and every pair
of each iteration will be skipped (so the first save writes a blank file),
there is no second iteration left to read it back. -/
def storeSafe (env : Env) (scenarios engines : List String) (runs : ℤ)
    (store0 : Store) : Prop :=
  ∀ e ∈ engines, store0 e ≠ some CsvFile.blank ∧
    (store0 e = none → scenarios.filter (fun s => filesExist env s) = [] →
      runs ≤ 1)

/-- The loop-invariant form of `storeSafe`, over the remaining iteration
list. -/
def loopSafe (env : Env) (scenarios engines : List String) (store : Store)
    (js : List ℤ) : Prop :=
  js = [] ∨ ∀ e ∈ engines, store e ≠ some CsvFile.blank ∧
    (store e = none → scenarios.filter (fun s => filesExist env s) = [] →
      js.length ≤ 1)

/-! ### The canonical analytical query of the Query Adapters

Both adapters delegate the relational operations to their engine (pandas
eager with either parquet decoding backend, polars lazy). The pipelines are
embedded here with the documented relational semantics of those operations:
inner join on `content_id` (one output row per matching fact/dim pair, only
the fact columns are consumed downstream), filter `process_status !=
"Failed"`, group by `region_country` with `sum(views)` and
`mean(engagement_score)`, sort descending by `views`. The engines enumerate
the groups in different orders before the final sort (pandas `groupby` sorts
the keys; polars `group_by` order is unspecified, modelled as
first-materialized order via `dedup`); ties in the final sort are
order-unspecified in both. -/

/-- A row of the fact table (`fact_content_performance_*.parquet`). -/
structure FactRow where
  content_id : String
  region_country : String
  views : ℚ
  engagement_score : ℚ
  process_status : String
deriving DecidableEq, Repr

/-- A row of the dimension table (`dim_content_metadata_*.parquet`). -/
structure DimRow where
  content_id : String
  content_category : String
deriving DecidableEq, Repr

/-- A row of the grouped/aggregated output. -/
structure OutRow where
  region_country : String
  views : ℚ
  engagement_score : ℚ
deriving DecidableEq, Repr

/-- Inner join of fact and dimension tables on `content_id`: one row per
matching pair, carrying the fact columns (the only ones consumed by the
rest of the pipeline). -/
def innerJoin (fact : List FactRow) (dim : List DimRow) : List FactRow :=
  fact.flatMap (fun f =>
    (dim.filter (fun d => d.content_id == f.content_id)).map (fun _ => f))

/-- `merged[merged["process_status"] != "Failed"]` /
`.filter(pl.col("process_status") != "Failed")`. -/
def filterFailed (rows : List FactRow) : List FactRow :=
  rows.filter (fun r => !(r.process_status == "Failed"))

/-- The rows of one `region_country` group. -/
def rowsOfRegion (rows : List FactRow) (g : String) : List FactRow :=
  rows.filter (fun r => r.region_country == g)

/-- `"views": "sum"` / `pl.col("views").sum()` over one group. -/
def sumViews (rows : List FactRow) (g : String) : ℚ :=
  ((rowsOfRegion rows g).map FactRow.views).sum

/-- `"engagement_score": "mean"` / `pl.col("engagement_score").mean()` over
one group. -/
def meanEngagement (rows : List FactRow) (g : String) : ℚ :=
  ((rowsOfRegion rows g).map FactRow.engagement_score).sum /
    (rowsOfRegion rows g).length

/-- Group-by with the two aggregates, producing one output row per listed
region. -/
def groupAgg (rows : List FactRow) (regions : List String) : List OutRow :=
  regions.map (fun g => ⟨g, sumViews rows g, meanEngagement rows g⟩)

/-- The comparison of the final descending sort on the summed metric. -/
def viewsDesc (a b : OutRow) : Bool := decide (b.views ≤ a.views)

/-- `.sort_values("views", ascending=False)` /
`.sort("views", descending=True)`. -/
def sortByViewsDesc (rows : List OutRow) : List OutRow :=
  rows.mergeSort viewsDesc

/-- The group keys as pandas `groupby` enumerates them: the distinct
`region_country` values in sorted order. -/
def pandasRegions (rows : List FactRow) : List String :=
  ((rows.map FactRow.region_country).dedup).mergeSort
    (fun a b => decide (a ≤ b))

/-- The group keys as the polars `group_by` materializes them: the distinct
`region_country` values, in an engine-chosen (unspecified) order. -/
def polarsRegions (rows : List FactRow) : List String :=
  (rows.map FactRow.region_country).dedup

/-- The result set of `_benchmark_pandas`'s `query()` (either decoding
backend: `use_pyarrow` only selects the parquet reader, the relational
pipeline is identical). -/
def pandasQueryResult (fact : List FactRow) (dim : List DimRow) : List OutRow :=
  sortByViewsDesc (groupAgg (filterFailed (innerJoin fact dim))
    (pandasRegions (filterFailed (innerJoin fact dim))))

/-- The result set of `_benchmark_polars`'s `query()` after `.collect()`. -/
def polarsQueryResult (fact : List FactRow) (dim : List DimRow) : List OutRow :=
  sortByViewsDesc (groupAgg (filterFailed (innerJoin fact dim))
    (polarsRegions (filterFailed (innerJoin fact dim))))

/-- The engine names carried by the `wrote` events of a trace, in order. -/
def wroteEngines (evs : List Event) : List String :=
  evs.filterMap (fun ev => match ev with
    | .wrote e => some e
    | _ => none)

/-- The working sets handed to the Result Store, in order. -/
def savedSets (evs : List Event) : List RBE :=
  evs.filterMap (fun ev => match ev with
    | .saved ws => some ws
    | _ => none)

/-- The working sets handed to the display sink, in order. -/
def displayedSets (evs : List Event) : List RBE :=
  evs.filterMap (fun ev => match ev with
    | .displayed ws => some ws
    | _ => none)

/-- The snapshots captured, in order. -/
def snapshots (evs : List Event) : List SystemInfo :=
  evs.filterMap (fun ev => match ev with
    | .snapshot info => some info
    | _ => none)

/-- `results_by_engine[e]` (empty when `e` is not a key). -/
def lookupWS (rbe : RBE) (e : String) : List BenchmarkResult :=
  (((rbe.find? (fun p => p.1 == e)).map Prod.snd).getD [])

/-! ### Concrete worlds used in closed instantiations -/

/-- A concrete machine snapshot. -/
def siW : SystemInfo :=
  { timestamp := "2024-01-01T00:00:00"
    cpu_count := 4
    cpu_count_logical := 8
    cpu_name := "cpu0"
    cpu_freq_mhz := some 2400
    memory_total_gb := 16
    memory_available_gb := 8 }

/-- A world in which only the `small` scenario's two input files exist and
every measured execution returns `(1, 2)`. -/
def envSmall : Env :=
  { fs := fun p => p == factFile "small" || p == dimFile "small"
    sysInfoAt := fun _ => siW
    measure := fun _ _ _ => .ok (1, 2) }

/-- A world with no input files at all. -/
def envNoFiles : Env :=
  { fs := fun _ => false
    sysInfoAt := fun _ => siW
    measure := fun _ _ _ => .ok (1, 2) }

/-- A world in which every input file exists but every measured execution
raises. -/
def envRaises : Env :=
  { fs := fun _ => true
    sysInfoAt := fun _ => siW
    measure := fun _ _ _ => .error "boom" }

/-- The empty `results/` directory. -/
def storeEmpty : Store := fun _ => none

/-- A `results/` directory in which every engine's file is the blank
(zero-column) CSV that `_save_results` writes for an empty working set. -/
def storeBlank : Store := fun _ => some CsvFile.blank

/-- A concrete benchmark result. -/
def resW : BenchmarkResult := BenchmarkResult.make "polars" "small" 1 2 siW ""

/-- A concrete fact table. -/
def factT : List FactRow :=
  [ { content_id := "content_000001", region_country := "BR", views := 10
      engagement_score := 5, process_status := "Success" }
  , { content_id := "content_000001", region_country := "US", views := 3
      engagement_score := 2, process_status := "Failed" } ]

/-- A concrete dimension table. -/
def dimT : List DimRow :=
  [ { content_id := "content_000001", content_category := "news" } ]

/-! ### Supporting lemmas -/

theorem filesExist_fact {env : Env} {s : String} (h : filesExist env s = true) :
    env.fs (factFile s) = true := by
  simp only [filesExist, Bool.and_eq_true] at h
  exact h.1

theorem filesExist_dim {env : Env} {s : String} (h : filesExist env s = true) :
    env.fs (dimFile s) = true := by
  simp only [filesExist, Bool.and_eq_true] at h
  exact h.2

theorem engineKnown_cases {e : String} (h : engineKnown e = true) :
    e = "pandas" ∨ e = "pandas-pyarrow" ∨ e = "polars" := by
  simp only [engineKnown, Bool.or_eq_true, beq_iff_eq] at h
  tauto

/-- In a well-behaved environment, the pair loop never raises and computes
the fold of `pairStep`, logging one `ran` event per executed pair. -/
theorem pairsLoop_eq_of_good (env : Env) (run_label : String) (i : ℤ)
    (ps : List (String × String))
    (hgood : ∀ p ∈ ps, filesExist env p.1 = true →
      engineKnown p.2 = true ∧
      env.measure p.2 p.1 i = .ok (measuredPair env i p.2 p.1)) :
    ∀ rbe evs, pairsLoop env i run_label ps (rbe, evs) =
      .ok (ps.foldl (pairStep env run_label i) rbe,
           evs ++ (ps.filter (fun p => filesExist env p.1)).map
             (fun p => Event.ran p.2 p.1)) := by
  induction ps with
  | nil => intro rbe evs; simp [pairsLoop]
  | cons p rest ih =>
    intro rbe evs
    obtain ⟨scn, eng⟩ := p
    have hrest := fun q hq => hgood q (List.mem_cons_of_mem _ hq)
    by_cases hf : filesExist env scn = true
    · obtain ⟨hk, hm⟩ := hgood (scn, eng) (List.mem_cons_self _ _) hf
      have hstep : run_single_benchmark env i eng scn (env.sysInfoAt i) run_label =
          .ok (expectedResult env run_label i eng scn) := by
        rcases engineKnown_cases hk with he | he | he <;>
          subst he <;>
          simp [run_single_benchmark, filesExist_fact hf, filesExist_dim hf,
            benchmark_pandas, benchmark_polars, hm, expectedResult,
            BenchmarkResult.make]
      simp only [pairsLoop, hstep]
      rw [ih hrest]
      simp [pairStep, hf]
    · have hstep : run_single_benchmark env i eng scn (env.sysInfoAt i) run_label =
          .error .fileNotFound := by
        have hcase : env.fs (factFile scn) = false ∨ env.fs (dimFile scn) = false := by
          cases h1 : env.fs (factFile scn) with
          | false => exact .inl rfl
          | true =>
            cases h2 : env.fs (dimFile scn) with
            | false => exact .inr rfl
            | true => exact absurd (by simp [filesExist, h1, h2]) hf
        rcases hcase with h | h <;> simp [run_single_benchmark, h]
      simp only [pairsLoop, hstep]
      rw [ih hrest]
      simp [pairStep, hf]

theorem appendResult_map (engines : List String)
    (f : String → List BenchmarkResult) (eng : String) (r : BenchmarkResult) :
    appendResult (engines.map fun e => (e, f e)) eng r =
      engines.map (fun e => (e, if e = eng then f e ++ [r] else f e)) := by
  simp only [appendResult, List.map_map]
  apply List.map_congr_left
  intro e _
  by_cases h : e = eng <;> simp [h]

theorem foldl_pairStep_shape (env : Env) (run_label : String) (i : ℤ) :
    ∀ (ps : List (String × String)) (engines : List String)
      (f : String → List BenchmarkResult),
    ps.foldl (pairStep env run_label i) (engines.map fun e => (e, f e)) =
      engines.map (fun e => (e, f e ++ pairResults env run_label i ps e)) := by
  intro ps
  induction ps with
  | nil => intro engines f; simp [pairResults]
  | cons p rest ih =>
    intro engines f
    rw [List.foldl_cons]
    by_cases hf : filesExist env p.1 = true
    · rw [show pairStep env run_label i (engines.map fun e => (e, f e)) p =
          engines.map fun e =>
            (e, (fun e' => if e' = p.2 then
              f e' ++ [expectedResult env run_label i p.2 p.1] else f e') e) by
        simp only [pairStep, hf, if_pos]
        exact appendResult_map engines f p.2 _]
      rw [ih]
      apply List.map_congr_left
      intro e _
      by_cases h2 : e = p.2
      · subst h2
        simp [pairResults, List.filter_cons, hf, List.append_assoc]
      · have : ¬ (p.2 == e) = true := by simpa using fun h => h2 h.symm
        simp only [pairResults, List.filter_cons, Bool.and_eq_true]
        simp [h2, this]
    · rw [show pairStep env run_label i (engines.map fun e => (e, f e)) p =
          engines.map fun e => (e, f e) by simp [pairStep, hf]]
      rw [ih]
      apply List.map_congr_left
      intro e _
      have : ¬ ((p.2 == e) && filesExist env p.1) = true := by
        simp [Bool.and_eq_true, hf]
      simp [pairResults, List.filter_cons, this]

theorem filter_beq_of_nodup {l : List String} (hnd : l.Nodup) {e : String}
    (he : e ∈ l) : l.filter (fun x => x == e) = [e] := by
  induction l with
  | nil => cases he
  | cons a rest ih =>
    obtain ⟨hna, hndr⟩ := List.nodup_cons.mp hnd
    rcases List.mem_cons.mp he with h | h
    · subst h
      have hrest : rest.filter (fun x => x == e) = [] := by
        rw [List.filter_eq_nil_iff]
        intro x hx
        simp only [beq_iff_eq]
        intro hxa
        exact hna (hxa ▸ hx)
      simp [List.filter_cons, hrest]
    · have ha : ¬ (a == e) = true := by
        simp only [beq_iff_eq]
        intro hae
        exact hna (hae ▸ h)
      simp [List.filter_cons, ha, ih hndr h]

theorem pairResults_append (env : Env) (run_label : String) (i : ℤ)
    (ps qs : List (String × String)) (e : String) :
    pairResults env run_label i (ps ++ qs) e =
      pairResults env run_label i ps e ++ pairResults env run_label i qs e := by
  simp [pairResults, List.filter_append]

theorem pairResults_pairsOf (env : Env) (run_label : String) (i : ℤ)
    (scenarios : List String) {engines : List String} (hnd : engines.Nodup)
    {e : String} (he : e ∈ engines) :
    pairResults env run_label i (pairsOf scenarios engines) e =
      expectedList env run_label scenarios i e := by
  induction scenarios with
  | nil => simp [pairResults, pairsOf, expectedList]
  | cons s rest ih =>
    have hsplit : pairsOf (s :: rest) engines =
        engines.map (fun eng => (s, eng)) ++ pairsOf rest engines := by
      simp [pairsOf]
    rw [hsplit, pairResults_append, ih]
    by_cases hf : filesExist env s = true
    · have hfirst : (engines.map (fun eng => (s, eng))).filter
          (fun p => p.2 == e && filesExist env p.1) =
          [(s, e)] := by
        rw [List.filter_map]
        have : (engines.filter ((fun p : String × String =>
            p.2 == e && filesExist env p.1) ∘ (fun eng => (s, eng)))) =
            engines.filter (fun x => x == e) := by
          apply List.filter_congr
          intro x _
          simp [Function.comp, hf]
        rw [this, filter_beq_of_nodup hnd he]
        rfl
      rw [pairResults, hfirst]
      simp [expectedList, List.filter_cons, hf]
    · have hfirst : (engines.map (fun eng => (s, eng))).filter
          (fun p => p.2 == e && filesExist env p.1) = [] := by
        rw [List.filter_eq_nil_iff]
        intro p hp
        obtain ⟨eng, _, rfl⟩ := List.mem_map.mp hp
        simp [hf]
      rw [pairResults, hfirst]
      simp [expectedList, List.filter_cons, hf]

theorem saveEngineOk_other (store : Store) (engine : String)
    (results : List BenchmarkResult) {e : String} (h : ¬ e = engine) :
    saveEngineOk store engine results e = store e := by
  simp [saveEngineOk, h]

theorem saveEngine_ok (store : Store) (engine : String)
    (results : List BenchmarkResult)
    (h : ¬ store engine = some CsvFile.blank) :
    saveEngine store engine results = .ok (saveEngineOk store engine results) := by
  simp [saveEngine, h]

theorem appendCsv_isSome (entry : Option CsvFile) (rows : List Row) :
    (appendCsv entry rows).isSome = true := by
  rcases entry with _ | c
  · simp only [appendCsv]
    split <;> simp
  · cases c <;> simp [appendCsv]

theorem appendCsv_ne_blank {entry : Option CsvFile} (rows : List Row)
    (hb : entry ≠ some CsvFile.blank) (hr : entry = none → rows ≠ []) :
    appendCsv entry rows ≠ some CsvFile.blank := by
  rcases entry with _ | c
  · simp only [appendCsv]
    rw [if_neg (hr rfl)]
    simp
  · cases c
    · exact absurd rfl hb
    · simp [appendCsv]

theorem saveStore_cons (store : Store) (p : String × List BenchmarkResult)
    (rest : RBE) :
    saveStore store (p :: rest) = saveStore (saveEngineOk store p.1 p.2) rest := by
  simp [saveStore]

theorem saveStore_not_mem : ∀ (rbe : RBE) (store : Store) {e : String},
    e ∉ rbe.map Prod.fst → saveStore store rbe e = store e := by
  intro rbe
  induction rbe with
  | nil => intro store e _; rfl
  | cons p rest ih =>
    intro store e he
    simp only [List.map_cons, List.mem_cons] at he
    push_neg at he
    rw [saveStore_cons, ih _ he.2, saveEngineOk_other _ _ _ he.1]

/-- Looking an engine up after a successful `_save_results`: its new file is
its prior file updated by `appendCsv` with its serialized rows. -/
theorem saveStore_lookup : ∀ (rbe : RBE) (store : Store) {e : String}
    {rs : List BenchmarkResult}, (rbe.map Prod.fst).Nodup → (e, rs) ∈ rbe →
    saveStore store rbe e =
      appendCsv (store e) (rs.map BenchmarkResult.to_dict) := by
  intro rbe
  induction rbe with
  | nil => intro store e rs _ hmem; cases hmem
  | cons p rest ih =>
    intro store e rs hnd hmem
    obtain ⟨hk, hndr⟩ := by
      simpa only [List.map_cons, List.nodup_cons] using hnd
    rcases List.mem_cons.mp hmem with h | h
    · cases h
      rw [saveStore_cons, saveStore_not_mem _ _ hk]
      simp [saveEngineOk]
    · have hne : ¬ e = p.1 := by
        intro he
        exact hk (he ▸ List.mem_map_of_mem Prod.fst h)
      rw [saveStore_cons, ih _ hndr h, saveEngineOk_other _ _ _ hne]

/-- After the store has processed a working set containing engine `e`,
`e`'s file exists (readable or blank). -/
theorem saveStore_isSome : ∀ (rbe : RBE) (store : Store) {e : String},
    e ∈ rbe.map Prod.fst → (saveStore store rbe e).isSome = true := by
  intro rbe
  induction rbe with
  | nil => intro store e hmem; cases hmem
  | cons p rest ih =>
    intro store e hmem
    rcases List.mem_cons.mp hmem with h | h
    · by_cases hr : e ∈ rest.map Prod.fst
      · rw [saveStore_cons]; exact ih _ hr
      · rw [saveStore_cons, saveStore_not_mem _ _ hr]
        simp [saveEngineOk, h, appendCsv_isSome]
    · rw [saveStore_cons]; exact ih _ h

theorem saveStore_isSome_of_isSome : ∀ (rbe : RBE) (store : Store) {e : String},
    (store e).isSome = true → (saveStore store rbe e).isSome = true := by
  intro rbe
  induction rbe with
  | nil => intro store e h; exact h
  | cons p rest ih =>
    intro store e h
    rw [saveStore_cons]
    apply ih
    by_cases hpe : e = p.1
    · simp [saveEngineOk, hpe, appendCsv_isSome]
    · rwa [saveEngineOk_other _ _ _ hpe]

/-- When no engine of the dictionary currently has a blank file,
`_save_results` cannot raise: it performs every write, in dictionary
order. -/
theorem save_results_eq_of_safe : ∀ (rbe : RBE) (store : Store),
    (rbe.map Prod.fst).Nodup →
    (∀ p ∈ rbe, store p.1 ≠ some CsvFile.blank) →
    save_results store rbe =
      .ok (saveStore store rbe, rbe.map (fun p => Event.wrote p.1)) := by
  intro rbe
  induction rbe with
  | nil => intro store _ _; simp [save_results, saveStore]
  | cons p rest ih =>
    intro store hnd hsafe
    obtain ⟨engine, results⟩ := p
    obtain ⟨hk, hndr⟩ := by
      simpa only [List.map_cons, List.nodup_cons] using hnd
    simp only [save_results]
    rw [saveEngine_ok store engine results
      (hsafe _ (List.mem_cons_self _ _))]
    have hsafe' : ∀ q ∈ rest,
        saveEngineOk store engine results q.1 ≠ some CsvFile.blank := by
      intro q hq
      have hne : ¬ q.1 = engine := by
        intro h
        exact hk (h ▸ List.mem_map_of_mem Prod.fst hq)
      rw [saveEngineOk_other _ _ _ hne]
      exact hsafe q (List.mem_cons_of_mem _ hq)
    simp only [ih _ hndr hsafe']
    simp [saveStore]

theorem goodEnv_pairs {env : Env} {scenarios engines : List String}
    (hgood : goodEnv env scenarios engines) (i : ℤ) :
    ∀ p ∈ pairsOf scenarios engines, filesExist env p.1 = true →
      engineKnown p.2 = true ∧
      env.measure p.2 p.1 i = .ok (measuredPair env i p.2 p.1) := by
  intro p hp hf
  have hmem : p.1 ∈ scenarios ∧ p.2 ∈ engines := by
    simp only [pairsOf, List.mem_flatMap, List.mem_map] at hp
    obtain ⟨s, hs, eng, heng, rfl⟩ := hp
    exact ⟨hs, heng⟩
  exact ⟨hgood.1 _ hmem.2, hgood.2 _ hmem.2 _ hmem.1 i hf⟩

/-- In a well-behaved environment, when no requested engine's file is
currently blank, one iteration: one snapshot, one adapter execution per pair
with existing inputs, the hand-off of the working sets to the Result Store,
and one store write per requested engine. -/
theorem runIteration_eq_of_good {env : Env} {scenarios engines : List String}
    (run_label : String) (hgood : goodEnv env scenarios engines)
    (hnd : engines.Nodup) (i : ℤ) (store : Store) (evs : List Event)
    (hsafe : ∀ e ∈ engines, store e ≠ some CsvFile.blank) :
    runIteration env run_label scenarios engines i store evs =
      .ok (saveStore store (iterWS env run_label scenarios engines i),
           evs ++ iterTrace env run_label scenarios engines i,
           iterWS env run_label scenarios engines i) := by
  have hws : (pairsOf scenarios engines).foldl (pairStep env run_label i)
      (engines.map fun e => (e, ([] : List BenchmarkResult))) =
      iterWS env run_label scenarios engines i := by
    rw [show (engines.map fun e => (e, ([] : List BenchmarkResult))) =
        engines.map fun e => (e, (fun _ => ([] : List BenchmarkResult)) e) from rfl]
    rw [foldl_pairStep_shape]
    apply List.map_congr_left
    intro e he
    rw [pairResults_pairsOf env run_label i scenarios hnd he]
    simp [iterWS]
  have hloop := pairsLoop_eq_of_good env run_label i _ (goodEnv_pairs hgood i)
    (engines.map fun e => (e, [])) (evs ++ [Event.snapshot (env.sysInfoAt i)])
  rw [hws] at hloop
  have hkeys : (iterWS env run_label scenarios engines i).map Prod.fst =
      engines := by
    simp only [iterWS, List.map_map]
    exact List.map_id engines
  have hsave : save_results store (iterWS env run_label scenarios engines i) =
      .ok (saveStore store (iterWS env run_label scenarios engines i),
        (iterWS env run_label scenarios engines i).map
          (fun p => Event.wrote p.1)) := by
    apply save_results_eq_of_safe
    · rw [hkeys]; exact hnd
    · intro p hp
      apply hsafe
      rw [← hkeys]
      exact List.mem_map_of_mem Prod.fst hp
  have hwrote : (iterWS env run_label scenarios engines i).map
      (fun p => Event.wrote p.1) = engines.map Event.wrote := by
    simp [iterWS, List.map_map, Function.comp]
  simp only [runIteration]
  rw [hloop]
  simp [hsave, hwrote, iterTrace, ranEvents, List.append_assoc]

/-- In a well-behaved environment, when no save of the remaining iterations
can hit a blank file, the repeat loop runs every iteration, threading the
store and leaving `results_by_engine` bound to the last iteration's working
sets. -/
theorem runsLoop_eq_of_good {env : Env} {scenarios engines : List String}
    (run_label : String) (hgood : goodEnv env scenarios engines)
    (hnd : engines.Nodup) :
    ∀ (js : List ℤ) (store : Store) (evs : List Event) (acc : Option RBE),
    loopSafe env scenarios engines store js →
    runsLoop env run_label scenarios engines js store evs acc =
      .ok (storeAfter env run_label scenarios engines js store,
           evs ++ js.flatMap (iterTrace env run_label scenarios engines),
           lastWS env run_label scenarios engines js acc) := by
  intro js
  induction js with
  | nil => intro store evs acc _; simp [runsLoop, storeAfter, lastWS]
  | cons j rest ih =>
    intro store evs acc hsafe
    have hsafe1 : ∀ e ∈ engines, store e ≠ some CsvFile.blank ∧
        (store e = none → scenarios.filter (fun s => filesExist env s) = [] →
          rest.length + 1 ≤ 1) := by
      rcases hsafe with h | h
      · exact absurd h (List.cons_ne_nil _ _)
      · simpa using h
    have hrest : loopSafe env scenarios engines
        (saveStore store (iterWS env run_label scenarios engines j)) rest := by
      by_cases hre : rest = []
      · exact Or.inl hre
      · refine Or.inr (fun e he => ?_)
        obtain ⟨hblank, hnone⟩ := hsafe1 e he
        have hlook : saveStore store (iterWS env run_label scenarios engines j) e =
            appendCsv (store e)
              ((expectedList env run_label scenarios j e).map
                BenchmarkResult.to_dict) := by
          apply saveStore_lookup
          · have hkeys : (iterWS env run_label scenarios engines j).map
                Prod.fst = engines := by
              simp only [iterWS, List.map_map]
              exact List.map_id engines
            rw [hkeys]; exact hnd
          · simp only [iterWS, List.mem_map]
            exact ⟨e, he, rfl⟩
        constructor
        · rw [hlook]
          refine appendCsv_ne_blank _ hblank (fun hn hrows => ?_)
          have hfil : scenarios.filter (fun s => filesExist env s) = [] := by
            simpa [expectedList] using hrows
          have hlen := hnone hn hfil
          have : rest.length = 0 := by omega
          exact hre (List.length_eq_zero.mp this)
        · intro hn
          exfalso
          have hs := appendCsv_isSome (store e)
            ((expectedList env run_label scenarios j e).map
              BenchmarkResult.to_dict)
          rw [← hlook, hn] at hs
          simp at hs
    simp only [runsLoop]
    rw [runIteration_eq_of_good run_label hgood hnd j store evs
      (fun e he => (hsafe1 e he).1)]
    simp only []
    rw [ih _ _ _ hrest]
    simp [storeAfter, lastWS, List.append_assoc]

theorem selEngines_nodup (engine : String) : (selEngines engine).Nodup := by
  unfold selEngines
  by_cases h : engine ≠ "all"
  · simp [h]
  · simp only [h, if_neg, if_false]
    decide

theorem runNums_eq_append {runs : ℤ} (h : 1 ≤ runs) :
    runNums runs = runNums (runs - 1) ++ [runs] := by
  unfold runNums
  have h1 : runs.toNat = (runs - 1).toNat + 1 := by omega
  rw [h1, List.range_succ, List.map_append]
  simp only [List.map_cons, List.map_nil]
  have h2 : Int.ofNat ((runs - 1).toNat) + 1 = runs := by
    rw [Int.ofNat_eq_coe, Int.toNat_of_nonneg (by omega : (0:ℤ) ≤ runs - 1)]
    omega
  rw [h2]

theorem lastWS_append (env : Env) (run_label : String)
    (scenarios engines : List String) (js : List ℤ) (j : ℤ) (acc : Option RBE) :
    lastWS env run_label scenarios engines (js ++ [j]) acc =
      some (iterWS env run_label scenarios engines j) := by
  simp [lastWS, List.foldl_append]

/-- Master lemma: in a well-behaved environment with at least one repeat
and a store state on which no save can raise, `run_benchmarks` completes
normally; the final store is the fold of the per-iteration appends over the
initial store, and the trace is the concatenation of the iteration traces
followed by the display of the last iteration's working sets. -/
theorem run_benchmarks_eq_of_good {env : Env} {scenario engine : String}
    (run_label : String) {runs : ℤ} (store0 : Store)
    (hgood : goodEnv env (selScenarios scenario) (selEngines engine))
    (hruns : 1 ≤ runs)
    (hsafe : storeSafe env (selScenarios scenario) (selEngines engine)
      runs store0) :
    run_benchmarks env scenario engine run_label runs store0 =
      .ok (storeAfter env run_label (selScenarios scenario) (selEngines engine)
             (runNums runs) store0,
           (runNums runs).flatMap
             (iterTrace env run_label (selScenarios scenario) (selEngines engine)) ++
           [.displayed (iterWS env run_label (selScenarios scenario)
             (selEngines engine) runs)]) := by
  have hlast : lastWS env run_label (selScenarios scenario) (selEngines engine)
      (runNums runs) none =
      some (iterWS env run_label (selScenarios scenario) (selEngines engine) runs) := by
    rw [runNums_eq_append hruns, lastWS_append]
  have hloopsafe : loopSafe env (selScenarios scenario) (selEngines engine)
      store0 (runNums runs) := by
    refine Or.inr (fun e he => ?_)
    obtain ⟨h1, h2⟩ := hsafe e he
    refine ⟨h1, fun hn hf => ?_⟩
    have hr1 := h2 hn hf
    have hlen : (runNums runs).length = runs.toNat := by simp [runNums]
    rw [hlen]
    omega
  simp only [run_benchmarks]
  rw [runsLoop_eq_of_good run_label hgood (selEngines_nodup engine)
    (runNums runs) store0 [] none hloopsafe]
  rw [hlast]
  simp

/-- When `runs ≤ 0` the repeat loop never executes, so the display step
reads the never-bound `results_by_engine` and raises a `NameError`. -/
theorem run_benchmarks_nameError (env : Env) (scenario engine run_label : String)
    {runs : ℤ} (h : runs ≤ 0) (store0 : Store) :
    run_benchmarks env scenario engine run_label runs store0 =
      .error (.nameError "results_by_engine") := by
  have hnil : runNums runs = [] := by
    unfold runNums
    have : runs.toNat = 0 := by omega
    simp [this]
  simp only [run_benchmarks]
  rw [hnil]
  simp [runsLoop]

theorem groupAgg_map_region (rows : List FactRow) (regions : List String) :
    (groupAgg rows regions).map OutRow.region_country = regions := by
  simp only [groupAgg, List.map_map]
  exact List.map_id regions

theorem mem_groupAgg {rows : List FactRow} {regions : List String} {r : OutRow}
    (h : r ∈ groupAgg rows regions) :
    r.views = sumViews rows r.region_country ∧
      r.engagement_score = meanEngagement rows r.region_country := by
  simp only [groupAgg, List.mem_map] at h
  obtain ⟨g, _, rfl⟩ := h
  exact ⟨rfl, rfl⟩

theorem sortByViewsDesc_perm (rows : List OutRow) :
    List.Perm (sortByViewsDesc rows) rows :=
  List.mergeSort_perm rows viewsDesc

theorem sortByViewsDesc_sorted (rows : List OutRow) :
    (sortByViewsDesc rows).Pairwise (fun a b => b.views ≤ a.views) := by
  have h := @List.sorted_mergeSort OutRow viewsDesc
    (fun a b c hab hbc => by
      simp only [viewsDesc, decide_eq_true_eq] at hab hbc ⊢
      exact le_trans hbc hab)
    (fun a b => by
      simp only [viewsDesc, Bool.or_eq_true, decide_eq_true_eq]
      exact le_total b.views a.views)
    rows
  exact h.imp (fun hab => by simpa [viewsDesc] using hab)

theorem pandasRegions_perm (rows : List FactRow) :
    List.Perm (pandasRegions rows) ((rows.map FactRow.region_country).dedup) :=
  List.mergeSort_perm _ _

/-- Common properties of the canonical query result, for any enumeration
order of the distinct region keys. -/
theorem queryResult_props (fact : List FactRow) (dim : List DimRow)
    (regions : List String)
    (hperm : List.Perm regions
      (((filterFailed (innerJoin fact dim)).map FactRow.region_country).dedup)) :
    ((sortByViewsDesc (groupAgg (filterFailed (innerJoin fact dim)) regions)).map
        OutRow.region_country).Nodup ∧
    List.Perm
      ((sortByViewsDesc (groupAgg (filterFailed (innerJoin fact dim)) regions)).map
        OutRow.region_country)
      (((filterFailed (innerJoin fact dim)).map FactRow.region_country).dedup) ∧
    (∀ r ∈ sortByViewsDesc (groupAgg (filterFailed (innerJoin fact dim)) regions),
      r.views = sumViews (filterFailed (innerJoin fact dim)) r.region_country ∧
      r.engagement_score =
        meanEngagement (filterFailed (innerJoin fact dim)) r.region_country) ∧
    (sortByViewsDesc (groupAgg (filterFailed (innerJoin fact dim)) regions)).Pairwise
      (fun a b => b.views ≤ a.views) := by
  set jf := filterFailed (innerJoin fact dim) with hjf
  have hmapperm : List.Perm
      ((sortByViewsDesc (groupAgg jf regions)).map OutRow.region_country)
      ((jf.map FactRow.region_country).dedup) := by
    have h1 : List.Perm
        ((sortByViewsDesc (groupAgg jf regions)).map OutRow.region_country)
        ((groupAgg jf regions).map OutRow.region_country) :=
      (sortByViewsDesc_perm _).map _
    rw [groupAgg_map_region] at h1
    exact h1.trans hperm
  refine ⟨?_, hmapperm, ?_, sortByViewsDesc_sorted _⟩
  · exact hmapperm.nodup_iff.mpr (List.nodup_dedup _)
  · intro r hr
    exact mem_groupAgg (((sortByViewsDesc_perm _).mem_iff).mp hr)

/-! ### Store lookup and frame lemmas, event extraction -/

theorem lookupWS_map (g : String → List BenchmarkResult) :
    ∀ (engines : List String) (e : String),
    lookupWS (engines.map (fun e' => (e', g e'))) e =
      if e ∈ engines then g e else [] := by
  intro engines
  induction engines with
  | nil => intro e; simp [lookupWS]
  | cons a rest ih =>
    intro e
    by_cases h : a = e
    · subst h
      simp [lookupWS, List.find?]
    · have : ¬ (a == e) = true := by simpa using h
      simp only [List.map_cons, lookupWS, List.find?, this]
      rw [← lookupWS, ih e]
      have hea : ¬ e = a := fun he => h he.symm
      simp [List.mem_cons, hea]

theorem iterWS_keys (env : Env) (run_label : String)
    (scenarios engines : List String) (i : ℤ) :
    (iterWS env run_label scenarios engines i).map Prod.fst = engines := by
  simp only [iterWS, List.map_map]
  exact List.map_id engines

/-- None of the four extractors sees anything in a list of `ran` events. -/
theorem extract_ran_events (l : List (String × String)) :
    wroteEngines (l.map (fun p => Event.ran p.2 p.1)) = [] ∧
    savedSets (l.map (fun p => Event.ran p.2 p.1)) = [] ∧
    snapshots (l.map (fun p => Event.ran p.2 p.1)) = [] ∧
    displayedSets (l.map (fun p => Event.ran p.2 p.1)) = [] := by
  induction l with
  | nil => exact ⟨rfl, rfl, rfl, rfl⟩
  | cons p rest ih =>
    simp only [List.map_cons, wroteEngines, savedSets, snapshots,
      displayedSets, List.filterMap_cons] at ih ⊢
    exact ih

theorem extract_wrote_events (engines : List String) :
    wroteEngines (engines.map Event.wrote) = engines ∧
    savedSets (engines.map Event.wrote) = [] ∧
    snapshots (engines.map Event.wrote) = [] ∧
    displayedSets (engines.map Event.wrote) = [] := by
  induction engines with
  | nil => exact ⟨rfl, rfl, rfl, rfl⟩
  | cons a rest ih =>
    simp only [List.map_cons, wroteEngines, savedSets, snapshots,
      displayedSets, List.filterMap_cons] at ih ⊢
    exact ⟨by rw [ih.1], ih.2.1, ih.2.2.1, ih.2.2.2⟩

theorem wroteEngines_iterTrace (env : Env) (run_label : String)
    (scenarios engines : List String) (i : ℤ) :
    wroteEngines (iterTrace env run_label scenarios engines i) = engines := by
  have h1 := (extract_ran_events
    ((pairsOf scenarios engines).filter (fun p => filesExist env p.1))).1
  have h2 := (extract_wrote_events engines).1
  simp only [wroteEngines] at h1 h2 ⊢
  simp [iterTrace, ranEvents, List.filterMap_cons, List.filterMap_append,
    h1, h2]

theorem savedSets_iterTrace (env : Env) (run_label : String)
    (scenarios engines : List String) (i : ℤ) :
    savedSets (iterTrace env run_label scenarios engines i) =
      [iterWS env run_label scenarios engines i] := by
  have h1 := (extract_ran_events
    ((pairsOf scenarios engines).filter (fun p => filesExist env p.1))).2.1
  have h2 := (extract_wrote_events engines).2.1
  simp only [savedSets] at h1 h2 ⊢
  simp [iterTrace, ranEvents, List.filterMap_cons, List.filterMap_append,
    h1, h2]

theorem snapshots_iterTrace (env : Env) (run_label : String)
    (scenarios engines : List String) (i : ℤ) :
    snapshots (iterTrace env run_label scenarios engines i) =
      [env.sysInfoAt i] := by
  have h1 := (extract_ran_events
    ((pairsOf scenarios engines).filter (fun p => filesExist env p.1))).2.2.1
  have h2 := (extract_wrote_events engines).2.2.1
  simp only [snapshots] at h1 h2 ⊢
  simp [iterTrace, ranEvents, List.filterMap_cons, List.filterMap_append,
    h1, h2]

theorem displayedSets_iterTrace (env : Env) (run_label : String)
    (scenarios engines : List String) (i : ℤ) :
    displayedSets (iterTrace env run_label scenarios engines i) = [] := by
  have h1 := (extract_ran_events
    ((pairsOf scenarios engines).filter (fun p => filesExist env p.1))).2.2.2
  have h2 := (extract_wrote_events engines).2.2.2
  simp only [displayedSets] at h1 h2 ⊢
  simp [iterTrace, ranEvents, List.filterMap_cons, List.filterMap_append,
    h1, h2]

theorem savedSets_flatMap (env : Env) (run_label : String)
    (scenarios engines : List String) (js : List ℤ) :
    savedSets (js.flatMap (iterTrace env run_label scenarios engines)) =
      js.map (iterWS env run_label scenarios engines) := by
  induction js with
  | nil => rfl
  | cons j rest ih =>
    have hit := savedSets_iterTrace env run_label scenarios engines j
    simp only [savedSets] at hit ih ⊢
    simp [List.flatMap_cons, List.filterMap_append, hit, ih]

theorem wroteEngines_flatMap (env : Env) (run_label : String)
    (scenarios engines : List String) (js : List ℤ) :
    wroteEngines (js.flatMap (iterTrace env run_label scenarios engines)) =
      js.flatMap (fun _ => engines) := by
  induction js with
  | nil => rfl
  | cons j rest ih =>
    have hit := wroteEngines_iterTrace env run_label scenarios engines j
    simp only [wroteEngines] at hit ih ⊢
    simp [List.flatMap_cons, List.filterMap_append, hit, ih]

theorem snapshots_flatMap (env : Env) (run_label : String)
    (scenarios engines : List String) (js : List ℤ) :
    snapshots (js.flatMap (iterTrace env run_label scenarios engines)) =
      js.map (fun i => env.sysInfoAt i) := by
  induction js with
  | nil => rfl
  | cons j rest ih =>
    have hit := snapshots_iterTrace env run_label scenarios engines j
    simp only [snapshots] at hit ih ⊢
    simp [List.flatMap_cons, List.filterMap_append, hit, ih]

theorem displayedSets_flatMap (env : Env) (run_label : String)
    (scenarios engines : List String) (js : List ℤ) :
    displayedSets (js.flatMap (iterTrace env run_label scenarios engines)) =
      [] := by
  induction js with
  | nil => rfl
  | cons j rest ih =>
    have hit := displayedSets_iterTrace env run_label scenarios engines j
    simp only [displayedSets] at hit ih ⊢
    simp [List.flatMap_cons, List.filterMap_append, hit, ih]

theorem storeAfter_not_mem (env : Env) (run_label : String)
    (scenarios engines : List String) : ∀ (js : List ℤ) (store : Store)
    {e : String}, e ∉ engines →
    storeAfter env run_label scenarios engines js store e = store e := by
  intro js
  induction js with
  | nil => intro store e _; rfl
  | cons j rest ih =>
    intro store e he
    show storeAfter env run_label scenarios engines rest
      (saveStore store (iterWS env run_label scenarios engines j)) e = store e
    rw [ih _ he, saveStore_not_mem _ _ (by rwa [iterWS_keys])]

theorem storeAfter_isSome_of_isSome (env : Env) (run_label : String)
    (scenarios engines : List String) : ∀ (js : List ℤ) (store : Store)
    {e : String}, (store e).isSome = true →
    (storeAfter env run_label scenarios engines js store e).isSome = true := by
  intro js
  induction js with
  | nil => intro store e h; exact h
  | cons j rest ih =>
    intro store e h
    exact ih _ (saveStore_isSome_of_isSome _ _ h)

theorem storeAfter_isSome (env : Env) (run_label : String)
    (scenarios engines : List String) (js : List ℤ) (store : Store)
    {e : String} (he : e ∈ engines) (hjs : js ≠ []) :
    (storeAfter env run_label scenarios engines js store e).isSome = true := by
  cases js with
  | nil => exact absurd rfl hjs
  | cons j rest =>
    exact storeAfter_isSome_of_isSome env run_label scenarios engines rest _
      (saveStore_isSome _ _ (by rwa [iterWS_keys]))

theorem runNums_head {runs : ℤ} (h : 1 ≤ runs) :
    ∃ rest, runNums runs = 1 :: rest := by
  have h1 : runs.toNat = (runs.toNat - 1) + 1 := by omega
  refine ⟨(List.range (runs.toNat - 1)).map
    (fun k => Int.ofNat (Nat.succ k) + 1), ?_⟩
  unfold runNums
  rw [h1, List.range_succ_eq_map]
  simp [List.map_map, Function.comp]

/-! ### The claims -/

/-- Claim C3: the Measurement Wrapper executes the given operation exactly
once (the final state is `stop` applied to the state after one application
of the operation, which runs with tracing already started), returns the pair
of the elapsed monotonic-clock time bracketing only the operation call and
the traced peak divided by `1024 * 1024`, and does not forward the
operation's return value (the reported pair is fully determined by the
operation's state effect alone). -/
theorem C3_measurement_wrapper (α : Type) (func : TraceState → TraceState × α)
    (s0 : TraceState) :
    measure_execution func s0 =
      (tracemallocStop (func (tracemallocStart s0)).1,
        ((func (tracemallocStart s0)).1.clock - s0.clock,
         (func (tracemallocStart s0)).1.tracePeak / (1024 * 1024))) ∧
    (tracemallocStart s0).tracing = true ∧
    (tracemallocStop (func (tracemallocStart s0)).1).tracing = false :=
  ⟨rfl, rfl, rfl⟩

/-- Claim C8: every row serialized from a `BenchmarkResult` has exactly the
twelve fields in the order timestamp, run_label, engine, scenario,
time_seconds, memory_mb, cpu_count, cpu_count_logical, cpu_name,
cpu_freq_mhz, memory_total_gb, memory_available_gb, with `time_seconds` the
measured elapsed time rounded to 4 decimal places and `memory_mb` the
measured peak memory rounded to 2. -/
theorem C8_row_serialization (engine scenario : String) (t m : ℚ)
    (si : SystemInfo) (label : String) :
    (BenchmarkResult.make engine scenario t m si label).to_dict =
      [ ("timestamp", .str si.timestamp)
      , ("run_label", .str label)
      , ("engine", .str engine)
      , ("scenario", .str scenario)
      , ("time_seconds", .rat (roundTo 4 t))
      , ("memory_mb", .rat (roundTo 2 m))
      , ("cpu_count", .int si.cpu_count)
      , ("cpu_count_logical", .int si.cpu_count_logical)
      , ("cpu_name", .str si.cpu_name)
      , ("cpu_freq_mhz", .optInt si.cpu_freq_mhz)
      , ("memory_total_gb", .rat si.memory_total_gb)
      , ("memory_available_gb", .rat si.memory_available_gb) ] := rfl

/-- Claim C4: on every pair of input tables, the pandas eager pipeline (both
decoding sub-variants share it) and the polars lazy pipeline compute the
same canonical query: their results are permutations of each other, and each
result groups by every distinct post-join-and-filter region exactly once,
sums `views` and averages `engagement_score` over exactly that group's
post-join-and-filter rows (so `"Failed"` rows contribute to no aggregate),
and is sorted non-increasing by the summed `views`. -/
theorem C4_query_adapters (fact : List FactRow) (dim : List DimRow) :
    List.Perm (pandasQueryResult fact dim) (polarsQueryResult fact dim) ∧
    ∀ out ∈ [pandasQueryResult fact dim, polarsQueryResult fact dim],
      (out.map OutRow.region_country).Nodup ∧
      List.Perm (out.map OutRow.region_country)
        (((filterFailed (innerJoin fact dim)).map FactRow.region_country).dedup) ∧
      (∀ r ∈ out,
        r.views = sumViews (filterFailed (innerJoin fact dim)) r.region_country ∧
        r.engagement_score =
          meanEngagement (filterFailed (innerJoin fact dim)) r.region_country) ∧
      out.Pairwise (fun a b => b.views ≤ a.views) := by
  have hpandas := queryResult_props fact dim
    (pandasRegions (filterFailed (innerJoin fact dim)))
    (pandasRegions_perm (filterFailed (innerJoin fact dim)))
  have hpolars := queryResult_props fact dim
    (polarsRegions (filterFailed (innerJoin fact dim)))
    (List.Perm.refl _)
  constructor
  · have h1 : List.Perm (pandasQueryResult fact dim)
        (groupAgg (filterFailed (innerJoin fact dim))
          (pandasRegions (filterFailed (innerJoin fact dim)))) :=
      sortByViewsDesc_perm _
    have h2 : List.Perm
        (groupAgg (filterFailed (innerJoin fact dim))
          (pandasRegions (filterFailed (innerJoin fact dim))))
        (groupAgg (filterFailed (innerJoin fact dim))
          (polarsRegions (filterFailed (innerJoin fact dim)))) :=
      (pandasRegions_perm (filterFailed (innerJoin fact dim))).map _
    have h3 : List.Perm (polarsQueryResult fact dim)
        (groupAgg (filterFailed (innerJoin fact dim))
          (polarsRegions (filterFailed (innerJoin fact dim)))) :=
      sortByViewsDesc_perm _
    exact (h1.trans h2).trans h3.symm
  · intro out hout
    rcases List.mem_cons.mp hout with h | h
    · exact h ▸ hpandas
    · rcases List.mem_cons.mp h with h | h
      · exact h ▸ hpolars
      · cases h

/-- Claim C2 (amended): for every engine and ordered result sequence handed
to the Result Store, provided no engine of the dictionary currently has the
blank zero-column file: the call performs every write; an engine whose table
exists as a readable CSV afterwards holds exactly its prior rows first,
values and order preserved, followed by its new serialized rows; an engine
with no file gets exactly the new rows when the sequence is nonempty, and
the blank zero-column file when it is empty; handing the same nonempty
working sets twice, an initially absent table afterwards holds each
serialized row exactly twice, in append order. The unamended claim fails on
blank files (see the counterexample). -/
theorem C2_result_store_append (store : Store) (rbe : RBE) (e : String)
    (rs : List BenchmarkResult) (hnd : (rbe.map Prod.fst).Nodup)
    (hmem : (e, rs) ∈ rbe)
    (hsafe : ∀ p ∈ rbe, store p.1 ≠ some CsvFile.blank) :
    (save_results store rbe =
      .ok (saveStore store rbe, rbe.map (fun p => Event.wrote p.1))) ∧
    (∀ old, store e = some (.table old) →
      saveStore store rbe e =
        some (.table (old ++ rs.map BenchmarkResult.to_dict))) ∧
    (store e = none → rs ≠ [] →
      saveStore store rbe e =
        some (.table (rs.map BenchmarkResult.to_dict))) ∧
    (store e = none → rs = [] →
      saveStore store rbe e = some CsvFile.blank) ∧
    ((∀ p ∈ rbe, p.2 ≠ []) →
      save_results (saveStore store rbe) rbe =
        .ok (saveStore (saveStore store rbe) rbe,
          rbe.map (fun p => Event.wrote p.1)) ∧
      (store e = none →
        saveStore (saveStore store rbe) rbe e =
          some (.table (rs.map BenchmarkResult.to_dict ++
            rs.map BenchmarkResult.to_dict)))) ∧
    (∀ row : Row,
      (rs.map BenchmarkResult.to_dict ++
        rs.map BenchmarkResult.to_dict).count row =
        2 * (rs.map BenchmarkResult.to_dict).count row) := by
  have h1 := saveStore_lookup rbe store hnd hmem
  refine ⟨save_results_eq_of_safe rbe store hnd hsafe, ?_, ?_, ?_, ?_, ?_⟩
  · intro old hold
    rw [h1, hold]
    rfl
  · intro hnone hne
    have hrow : ¬ rs.map BenchmarkResult.to_dict = [] := by
      simpa using hne
    rw [h1, hnone]
    simp [appendCsv, hrow]
  · intro hnone hempty
    subst hempty
    rw [h1, hnone]
    rfl
  · intro hall
    have hsafe2 : ∀ p ∈ rbe, saveStore store rbe p.1 ≠ some CsvFile.blank := by
      intro p hp
      have hl := saveStore_lookup rbe store hnd
        (show (p.1, p.2) ∈ rbe by rw [Prod.mk.eta]; exact hp)
      rw [hl]
      refine appendCsv_ne_blank _ (hsafe p hp) (fun _ => ?_)
      simpa using hall p hp
    refine ⟨save_results_eq_of_safe rbe _ hnd hsafe2, fun hnone => ?_⟩
    have h2 := saveStore_lookup rbe (saveStore store rbe) hnd hmem
    have hne : ¬ rs.map BenchmarkResult.to_dict = [] := by
      simpa using hall (e, rs) hmem
    rw [h2, h1, hnone]
    simp [appendCsv, hne]
  · intro row
    simp [List.count_append, two_mul]

/-- Counterexample to C2 as stated: an engine's persisted table can exist as
the blank zero-column file — the program itself writes one for an empty
working set on an absent table — and then the Store raises `EmptyDataError`
at `pd.read_csv` instead of appending; in particular handing the empty
working set twice raises on the second call rather than yielding a table. -/
theorem C2_result_store_append_counterexample :
    save_results storeBlank [("polars", [resW])] =
      .error RunError.emptyDataError ∧
    ∃ st evs, save_results storeEmpty [("polars", [])] = .ok (st, evs) ∧
      save_results st [("polars", [])] = .error RunError.emptyDataError :=
  ⟨rfl, _, _, rfl, rfl⟩

/-- Closed instance of C2 (amended): saving one concrete polars result into
an empty store creates the table containing exactly its serialized row. -/
theorem C2_result_store_append_witness :
    (([("polars", [resW])] : RBE).map Prod.fst).Nodup ∧
    ("polars", [resW]) ∈ ([("polars", [resW])] : RBE) ∧
    (∀ p ∈ ([("polars", [resW])] : RBE),
      storeEmpty p.1 ≠ some CsvFile.blank) ∧
    saveStore storeEmpty [("polars", [resW])] "polars" =
      some (CsvFile.table ([resW].map BenchmarkResult.to_dict)) :=
  have hnd : (([("polars", [resW])] : RBE).map Prod.fst).Nodup := by
    simp
  have hmem : ("polars", [resW]) ∈ ([("polars", [resW])] : RBE) :=
    List.mem_singleton.mpr rfl
  have hsafe : ∀ p ∈ ([("polars", [resW])] : RBE),
      storeEmpty p.1 ≠ some CsvFile.blank := fun p _ => by simp [storeEmpty]
  ⟨hnd, hmem, hsafe,
    (C2_result_store_append storeEmpty _ "polars" [resW] hnd hmem hsafe).2.2.1
      rfl (by simp)⟩

/-- Closed instance of C4: the two adapters' results on concrete tables are
permutations of each other. -/
theorem C4_query_adapters_witness :
    List.Perm (pandasQueryResult factT dimT) (polarsQueryResult factT dimT) :=
  (C4_query_adapters factT dimT).1

/-- Claim C1 (code bug): the claim — with spec sections 4.3, 7 and 8 — has
the Runner skip missing-input pairs silently and complete the full matrix
without raising, but the code does not: with no input files present every
working set is empty, iteration 1 creates a blank zero-column CSV per
requested engine, and iteration 2's `_save_results` raises
`pandas.errors.EmptyDataError` at `pd.read_csv`, aborting the invocation
(nothing catches it). This theorem evaluates the model at that failing
input. -/
theorem C1_missing_inputs_crash :
    run_benchmarks envNoFiles "all" "all" "" 2 storeEmpty =
      .error RunError.emptyDataError := rfl

/-- Claim C5: with existing input files, an unknown engine name reaching the
per-pair dispatch aborts the whole invocation with the `ValueError`, and an
adapter/measurement failure (anything other than missing files) likewise
propagates and aborts the invocation — neither is swallowed like the
missing-file skip. -/
theorem C5_fatal_errors (env : Env) (s e run_label : String) (runs : ℤ)
    (store0 : Store) (hs : s ≠ "all") (he : e ≠ "all")
    (hf : filesExist env s = true) (hruns : 1 ≤ runs) :
    (engineKnown e = false →
      run_benchmarks env s e run_label runs store0 =
        .error (.unknownEngine e)) ∧
    (∀ msg, engineKnown e = true → env.measure e s 1 = .error msg →
      run_benchmarks env s e run_label runs store0 =
        .error (.adapterError msg)) := by
  obtain ⟨rest, hrn⟩ := runNums_head hruns
  have hsel1 : selScenarios s = [s] := by simp [selScenarios, hs]
  have hsel2 : selEngines e = [e] := by simp [selEngines, he]
  have hpairs : pairsOf [s] [e] = [(s, e)] := by simp [pairsOf]
  constructor
  · intro hk
    have h1 : ¬ e = "pandas" := by
      intro h; rw [h] at hk; simp [engineKnown] at hk
    have h2 : ¬ e = "pandas-pyarrow" := by
      intro h; rw [h] at hk; simp [engineKnown] at hk
    have h3 : ¬ e = "polars" := by
      intro h; rw [h] at hk; simp [engineKnown] at hk
    have hsingle : run_single_benchmark env 1 e s (env.sysInfoAt 1) run_label =
        .error (.unknownEngine e) := by
      simp [run_single_benchmark, filesExist_fact hf, filesExist_dim hf,
        h1, h2, h3]
    simp only [run_benchmarks, hsel1, hsel2, hrn, runsLoop, runIteration,
      hpairs, pairsLoop, hsingle]
  · intro msg hk hmsg
    have hsingle : run_single_benchmark env 1 e s (env.sysInfoAt 1) run_label =
        .error (.adapter msg) := by
      rcases engineKnown_cases hk with h | h | h <;> subst h <;>
        simp [run_single_benchmark, filesExist_fact hf, filesExist_dim hf,
          benchmark_pandas, benchmark_polars, hmsg]
    simp only [run_benchmarks, hsel1, hsel2, hrn, runsLoop, runIteration,
      hpairs, pairsLoop, hsingle]

/-- Closed instance of C5: with input files present, requesting the unknown
engine `"spark"` aborts with the `ValueError`, and a raising polars adapter
aborts with its error. -/
theorem C5_fatal_errors_witness :
    ("small" : String) ≠ "all" ∧ ("spark" : String) ≠ "all" ∧
    ("polars" : String) ≠ "all" ∧ filesExist envRaises "small" = true ∧
    (1 : ℤ) ≤ 1 ∧
    run_benchmarks envRaises "small" "spark" "" 1 storeEmpty =
      .error (.unknownEngine "spark") ∧
    run_benchmarks envRaises "small" "polars" "" 1 storeEmpty =
      .error (.adapterError "boom") :=
  ⟨by decide, by decide, by decide, rfl, le_refl 1,
    (C5_fatal_errors envRaises "small" "spark" "" 1 storeEmpty (by decide)
      (by decide) rfl (le_refl 1)).1 (by decide),
    (C5_fatal_errors envRaises "small" "polars" "" 1 storeEmpty (by decide)
      (by decide) rfl (le_refl 1)).2 "boom" (by decide) rfl⟩

/-- Claim C6 (amended): provided no save of the run hits a blank
zero-column file (`storeSafe`), every iteration's working sets are handed to
the Result Store within that iteration (before the next one starts, as the
trace shows), and after all iterations only the last iteration's working
sets are handed to the display step: earlier iterations' sets are saved but
never displayed. The unamended claim fails when a save reads a blank file
(see the counterexample). -/
theorem C6_persist_each_display_last (env : Env)
    (scenario engine run_label : String) (runs : ℤ) (store0 : Store)
    (hgood : goodEnv env (selScenarios scenario) (selEngines engine))
    (hruns : 1 ≤ runs)
    (hsafe : storeSafe env (selScenarios scenario) (selEngines engine)
      runs store0) :
    ∃ store' trace,
      run_benchmarks env scenario engine run_label runs store0 =
        .ok (store', trace) ∧
      trace = (runNums runs).flatMap
          (iterTrace env run_label (selScenarios scenario) (selEngines engine)) ++
        [.displayed (iterWS env run_label (selScenarios scenario)
          (selEngines engine) runs)] ∧
      savedSets trace = (runNums runs).map
        (iterWS env run_label (selScenarios scenario) (selEngines engine)) ∧
      displayedSets trace =
        [iterWS env run_label (selScenarios scenario) (selEngines engine) runs] := by
  refine ⟨_, _, run_benchmarks_eq_of_good run_label store0 hgood hruns hsafe,
    rfl, ?_, ?_⟩
  · have h := savedSets_flatMap env run_label (selScenarios scenario)
      (selEngines engine) (runNums runs)
    simp only [savedSets] at h ⊢
    simp [List.filterMap_append, h]
  · have h := displayedSets_flatMap env run_label (selScenarios scenario)
      (selEngines engine) (runNums runs)
    simp only [displayedSets] at h ⊢
    simp [List.filterMap_append, h]

/-- Counterexample to C6 as stated: at this input the second iteration's
working sets are never persisted and nothing is ever displayed — the run
aborts with `EmptyDataError` when `_save_results` reads the blank
zero-column CSV written in iteration 1. -/
theorem C6_persist_each_display_last_counterexample :
    run_benchmarks envNoFiles "all" "polars" "" 2 storeEmpty =
      .error RunError.emptyDataError := rfl

/-- Closed instance of C6 (amended): two repeat-iterations save twice and
display exactly the second iteration's working sets. -/
theorem C6_persist_each_display_last_witness :
    goodEnv envSmall (selScenarios "small") (selEngines "polars") ∧
    (1 : ℤ) ≤ 2 ∧
    storeSafe envSmall (selScenarios "small") (selEngines "polars")
      2 storeEmpty ∧
    ∃ store' trace,
      run_benchmarks envSmall "small" "polars" "" 2 storeEmpty =
        .ok (store', trace) ∧
      displayedSets trace =
        [iterWS envSmall "" (selScenarios "small") (selEngines "polars") 2] :=
  have hg : goodEnv envSmall (selScenarios "small") (selEngines "polars") :=
    ⟨by decide, fun e _ s _ i _ => rfl⟩
  have hsf : storeSafe envSmall (selScenarios "small") (selEngines "polars")
      2 storeEmpty :=
    fun e _ => ⟨by simp [storeEmpty], fun _ hfil => absurd hfil (by decide)⟩
  ⟨hg, by decide, hsf, by
    obtain ⟨store', trace, heq, -, -, hdisp⟩ :=
      C6_persist_each_display_last envSmall "small" "polars" "" 2 storeEmpty
        hg (by decide) hsf
    exact ⟨store', trace, heq, hdisp⟩⟩

/-- Claim C7: within each repeat-iteration exactly one Environment Snapshot
is captured, as the first action of the iteration (before any adapter
executes), and every result produced in that iteration carries that
identical snapshot — timestamp included, since the whole `SystemInfo` value
is fixed at capture time. Stated over runs that complete normally
(`storeSafe` rules out the blank-file `EmptyDataError`; the snapshot
discipline is a per-iteration property and does not depend on it). -/
theorem C7_one_snapshot_per_iteration (env : Env)
    (scenario engine run_label : String) (runs : ℤ) (store0 : Store)
    (hgood : goodEnv env (selScenarios scenario) (selEngines engine))
    (hruns : 1 ≤ runs)
    (hsafe : storeSafe env (selScenarios scenario) (selEngines engine)
      runs store0) :
    ∃ store' trace,
      run_benchmarks env scenario engine run_label runs store0 =
        .ok (store', trace) ∧
      trace = (runNums runs).flatMap
          (iterTrace env run_label (selScenarios scenario) (selEngines engine)) ++
        [.displayed (iterWS env run_label (selScenarios scenario)
          (selEngines engine) runs)] ∧
      snapshots trace = (runNums runs).map (fun i => env.sysInfoAt i) ∧
      (∀ i : ℤ,
        (iterTrace env run_label (selScenarios scenario)
          (selEngines engine) i).head? =
          some (.snapshot (env.sysInfoAt i)) ∧
        snapshots (iterTrace env run_label (selScenarios scenario)
          (selEngines engine) i) = [env.sysInfoAt i]) ∧
      (∀ i : ℤ, ∀ e : String,
        ∀ r ∈ lookupWS (iterWS env run_label (selScenarios scenario)
          (selEngines engine) i) e,
        r.system_info = env.sysInfoAt i) := by
  refine ⟨_, _, run_benchmarks_eq_of_good run_label store0 hgood hruns hsafe,
    rfl, ?_, ?_, ?_⟩
  · have h := snapshots_flatMap env run_label (selScenarios scenario)
      (selEngines engine) (runNums runs)
    simp only [snapshots] at h ⊢
    simp [List.filterMap_append, h]
  · intro i
    exact ⟨rfl, snapshots_iterTrace env run_label _ _ i⟩
  · intro i e r hr
    rw [iterWS, lookupWS_map] at hr
    by_cases he : e ∈ selEngines engine
    · simp only [he, if_pos, expectedList, List.mem_map] at hr
      obtain ⟨s, -, rfl⟩ := hr
      rfl
    · simp [he] at hr

/-- Closed instance of C7: a two-iteration run whose trace records exactly
the two snapshots, one per iteration. -/
theorem C7_one_snapshot_per_iteration_witness :
    goodEnv envSmall (selScenarios "small") (selEngines "polars") ∧
    (1 : ℤ) ≤ 2 ∧
    storeSafe envSmall (selScenarios "small") (selEngines "polars")
      2 storeEmpty ∧
    ∃ store' trace,
      run_benchmarks envSmall "small" "polars" "" 2 storeEmpty =
        .ok (store', trace) ∧
      snapshots trace = (runNums 2).map (fun i => envSmall.sysInfoAt i) :=
  have hg : goodEnv envSmall (selScenarios "small") (selEngines "polars") :=
    ⟨by decide, fun e _ s _ i _ => rfl⟩
  have hsf : storeSafe envSmall (selScenarios "small") (selEngines "polars")
      2 storeEmpty :=
    fun e _ => ⟨by simp [storeEmpty], fun _ hfil => absurd hfil (by decide)⟩
  ⟨hg, by decide, hsf, by
    obtain ⟨store', trace, heq, -, hsnap, -, -⟩ :=
      C7_one_snapshot_per_iteration envSmall "small" "polars" "" 2 storeEmpty
        hg (by decide) hsf
    exact ⟨store', trace, heq, hsnap⟩⟩

/-- Claim C9 (amended): with `runs ≥ 1` — and no blank-file
`EmptyDataError`, which would abort the run before the display step (see the
counterexample) — the run completes normally and the display step shows the
working sets bound by the last loop iteration; with `runs ≤ 0` the loop body
never runs, `results_by_engine` is never bound, and the display step raises
a `NameError` instead of completing as a no-op. -/
theorem C9_runs_positivity (env : Env) (scenario engine run_label : String)
    (runs : ℤ) (store0 : Store)
    (hgood : goodEnv env (selScenarios scenario) (selEngines engine)) :
    (1 ≤ runs →
      storeSafe env (selScenarios scenario) (selEngines engine) runs store0 →
      ∃ store' trace,
      run_benchmarks env scenario engine run_label runs store0 =
        .ok (store', trace) ∧
      displayedSets trace =
        [iterWS env run_label (selScenarios scenario) (selEngines engine) runs]) ∧
    (runs ≤ 0 →
      run_benchmarks env scenario engine run_label runs store0 =
        .error (.nameError "results_by_engine")) := by
  constructor
  · intro hruns hsafe
    refine ⟨_, _, run_benchmarks_eq_of_good run_label store0 hgood hruns hsafe,
      ?_⟩
    have h := displayedSets_flatMap env run_label (selScenarios scenario)
      (selEngines engine) (runNums runs)
    simp only [displayedSets] at h ⊢
    simp [List.filterMap_append, h]
  · intro h
    exact run_benchmarks_nameError env scenario engine run_label h store0

/-- Counterexample to C9's `runs ≥ 1` half as stated: here `runs = 2` yet
the run never reaches the display step — it aborts with `EmptyDataError` in
iteration 2's `_save_results`. -/
theorem C9_runs_positivity_counterexample :
    run_benchmarks envNoFiles "all" "pandas" "" 2 storeEmpty =
      .error RunError.emptyDataError := rfl

/-- Closed instance of C9 (amended): `runs = 1` completes normally while
`runs = 0` raises the `NameError`. -/
theorem C9_runs_positivity_witness :
    goodEnv envSmall (selScenarios "small") (selEngines "polars") ∧
    run_benchmarks envSmall "small" "polars" "" 0 storeEmpty =
      .error (.nameError "results_by_engine") ∧
    ∃ store' trace,
      run_benchmarks envSmall "small" "polars" "" 1 storeEmpty =
        .ok (store', trace) :=
  have hg : goodEnv envSmall (selScenarios "small") (selEngines "polars") :=
    ⟨by decide, fun e _ s _ i _ => rfl⟩
  have hsf : storeSafe envSmall (selScenarios "small") (selEngines "polars")
      1 storeEmpty :=
    fun e _ => ⟨by simp [storeEmpty], fun _ _ => le_refl 1⟩
  ⟨hg,
    (C9_runs_positivity envSmall "small" "polars" "" 0 storeEmpty hg).2
      (by decide),
    by
      obtain ⟨store', trace, heq, -⟩ :=
        (C9_runs_positivity envSmall "small" "polars" "" 1 storeEmpty hg).1
          (by decide) hsf
      exact ⟨store', trace, heq⟩⟩

/-- Claim C10 (amended): provided no save hits a blank zero-column file
(`storeSafe`), on every iteration the Result Store receives an entry — and
performs a write — for every requested engine, in request order, even when
that engine's working set is empty because all its pairs were skipped; after
the run every requested engine's file exists, and engines not requested in
this invocation are never written (their store entries are untouched). The
unamended per-iteration-write claim fails for `runs ≥ 2` over an initially
absent store with all pairs skipped: iteration 2 raises instead of writing
(see the counterexample). -/
theorem C10_store_written_per_engine (env : Env)
    (scenario engine run_label : String) (runs : ℤ) (store0 : Store)
    (hgood : goodEnv env (selScenarios scenario) (selEngines engine))
    (hruns : 1 ≤ runs)
    (hsafe : storeSafe env (selScenarios scenario) (selEngines engine)
      runs store0) :
    ∃ store' trace,
      run_benchmarks env scenario engine run_label runs store0 =
        .ok (store', trace) ∧
      wroteEngines trace = (runNums runs).flatMap (fun _ => selEngines engine) ∧
      (∀ e ∈ selEngines engine, (store' e).isSome = true) ∧
      (∀ e, e ∉ selEngines engine → store' e = store0 e) := by
  refine ⟨_, _, run_benchmarks_eq_of_good run_label store0 hgood hruns hsafe,
    ?_, ?_, ?_⟩
  · have h := wroteEngines_flatMap env run_label (selScenarios scenario)
      (selEngines engine) (runNums runs)
    simp only [wroteEngines] at h ⊢
    simp [List.filterMap_append, h]
  · intro e he
    obtain ⟨rest, hrn⟩ := runNums_head hruns
    refine storeAfter_isSome env run_label _ _ (runNums runs) store0 he ?_
    rw [hrn]
    simp
  · intro e he
    exact storeAfter_not_mem env run_label _ _ (runNums runs) store0 he

/-- Counterexample to C10 as stated: with all pairs skipped and an initially
absent store, `runs = 3` does not write each engine's file on each
iteration — iteration 2 aborts with `EmptyDataError` when `_save_results`
reads the blank zero-column file created in iteration 1. -/
theorem C10_store_written_per_engine_counterexample :
    run_benchmarks envNoFiles "all" "all" "" 3 storeEmpty =
      .error RunError.emptyDataError := rfl

/-- Closed instance of C10 (amended): a two-iteration `all × all` run over
the world where only `small` has inputs writes one file per requested
engine per iteration, in order. -/
theorem C10_store_written_per_engine_witness :
    goodEnv envSmall (selScenarios "all") (selEngines "all") ∧ (1 : ℤ) ≤ 2 ∧
    storeSafe envSmall (selScenarios "all") (selEngines "all") 2 storeEmpty ∧
    ∃ store' trace,
      run_benchmarks envSmall "all" "all" "" 2 storeEmpty =
        .ok (store', trace) ∧
      wroteEngines trace = (runNums 2).flatMap (fun _ => selEngines "all") :=
  have hg : goodEnv envSmall (selScenarios "all") (selEngines "all") :=
    ⟨by decide, fun e _ s _ i _ => rfl⟩
  have hsf : storeSafe envSmall (selScenarios "all") (selEngines "all")
      2 storeEmpty :=
    fun e _ => ⟨by simp [storeEmpty], fun _ hfil => absurd hfil (by decide)⟩
  ⟨hg, by decide, hsf, by
    obtain ⟨store', trace, heq, hw, -, -⟩ :=
      C10_store_written_per_engine envSmall "all" "all" "" 2 storeEmpty hg
        (by decide) hsf
    exact ⟨store', trace, heq, hw⟩⟩

end PyBrasil
